import Mathlib

/-!
Shallow embedding of the marblrun-memory-assistant retrieval core
(backend/app/services/{search_service,vector_service,embedding_service}.py and
backend/app/agents/base_agent.py), with theorems checking the spec's claims
about it.  Python floats are modelled as rationals, Python dicts as
association lists, and each external collaborator (OpenAI embedding provider,
Qdrant vector database) as an explicit function parameter following the
interface the spec gives for it.
-/

namespace Marblrun

/-- Scores and weights (Python floats), modelled as rationals. -/
abbrev Score := ℚ

/-- A payload value: payload dicts map string keys to numbers or strings. -/
inductive PVal where
  | num (q : ℚ)
  | str (s : String)
deriving DecidableEq

/-- Payload: structured metadata attached to a point, as a key-value list. -/
abbrev Payload := List (String × PVal)

/-- One search-result dict as produced by VectorService.search_vectors:
{id, score, payload}. -/
structure SearchResult where
  id : String
  score : Score
  payload : Payload
deriving DecidableEq

/-- One fused-result dict as produced by
SearchService._combine_search_results:
{id, score, semantic_score, text_score, payload}. -/
structure FusedResult where
  id : String
  score : Score
  semantic_score : Score
  text_score : Score
  payload : Payload
deriving DecidableEq

/-- The lookup dict {result['id']: result for result in results}: a later
duplicate id overwrites an earlier one, so lookup finds the last occurrence. -/
def buildLookup (results : List SearchResult) (i : String) : Option SearchResult :=
  results.reverse.find? (fun r => r.id == i)

/-- semantic_lookup.get(point_id, {}).get('score', 0) in
_combine_search_results. -/
def lookupScore (results : List SearchResult) (i : String) : Score :=
  match buildLookup results i with
  | some r => r.score
  | none => 0

/-- Payload selection in _combine_search_results: the semantic entry's payload
when the id is present there, else the text entry's payload, else {}. -/
def fusedPayload (semR textR : List SearchResult) (i : String) : Payload :=
  match buildLookup semR i with
  | some r => r.payload
  | none =>
    match buildLookup textR i with
    | some r => r.payload
    | none => []

/-- all_ids = set(semantic_lookup.keys()) | set(text_lookup.keys()):
one occurrence per id from either result list (iteration order of the
union is not contractually fixed; one order is chosen here). -/
def allIds (semR textR : List SearchResult) : List String :=
  (semR.map SearchResult.id ++ textR.map SearchResult.id).dedup

/-- The entry _combine_search_results appends for one id of the union:
scores default to 0 for the side the id is missing from, and
combined = semantic_score * semantic_weight + text_score * text_weight. -/
def fusedEntry (semR textR : List SearchResult) (semantic_weight text_weight : Score)
    (i : String) : FusedResult :=
  { id := i,
    score := lookupScore semR i * semantic_weight + lookupScore textR i * text_weight,
    semantic_score := lookupScore semR i,
    text_score := lookupScore textR i,
    payload := fusedPayload semR textR i }

/-- Sort order used by combined_results.sort(key=lambda x: x['score'],
reverse=True): descending combined score. -/
def fusedGE (a b : FusedResult) : Prop := b.score ≤ a.score

instance : DecidableRel fusedGE :=
  fun a b => inferInstanceAs (Decidable (b.score ≤ a.score))

instance : IsTotal FusedResult fusedGE :=
  ⟨fun a b => le_total b.score a.score⟩

instance : IsTrans FusedResult fusedGE :=
  ⟨fun _ _ _ h1 h2 => le_trans h2 h1⟩

/-- SearchService._combine_search_results: build the two lookups, take the
union of ids, build one fused entry per id, sort descending by combined
score. -/
def combine_search_results (semR textR : List SearchResult)
    (semantic_weight text_weight : Score) : List FusedResult :=
  List.insertionSort fusedGE
    ((allIds semR textR).map (fusedEntry semR textR semantic_weight text_weight))

/-- One call to an external collaborator made by the search service. -/
inductive ExtCall where
  | embedCall (text : String)
  | vectorSearchCall (limit : Nat)
  | textSearchCall (limit : Nat)
deriving DecidableEq

/-- The collaborators of SearchService: the embedding service and the two
vector-store search operations it delegates to. -/
structure SearchEnv where
  embed : String → Except String (List ℚ)
  vectorSearch : List ℚ → Nat → Except String (List SearchResult)
  textSearch : String → Nat → Except String (List SearchResult)

/-- SearchService.semantic_search: embed the query, then search the vector
store; the value returned alongside the result is the list of external calls
made, in order.  (Of the dict the source assembles, only the 'results' entry
is consumed downstream and modelled.) -/
def semantic_search (env : SearchEnv) (query : String) (limit : Nat) :
    Except String (List SearchResult) × List ExtCall :=
  match env.embed query with
  | .error e => (.error ("Semantic search failed: " ++ e), [ExtCall.embedCall query])
  | .ok v =>
    match env.vectorSearch v limit with
    | .error e =>
      (.error ("Semantic search failed: " ++ e),
       [ExtCall.embedCall query, ExtCall.vectorSearchCall limit])
    | .ok rs =>
      (.ok rs, [ExtCall.embedCall query, ExtCall.vectorSearchCall limit])

/-- SearchService.hybrid_search: semantic search with limit*2, text search
with limit*2, combine, take the top limit entries.  No weight validation is
performed here. -/
def hybrid_search (env : SearchEnv) (query : String) (limit : Nat)
    (semantic_weight text_weight : Score) :
    Except String (List FusedResult) × List ExtCall :=
  match semantic_search env query (limit * 2) with
  | (.error e, calls) => (.error ("Hybrid search failed: " ++ e), calls)
  | (.ok semR, calls) =>
    match env.textSearch query (limit * 2) with
    | .error e =>
      (.error ("Hybrid search failed: " ++ e),
       calls ++ [ExtCall.textSearchCall (limit * 2)])
    | .ok textR =>
      (.ok ((combine_search_results semR textR semantic_weight text_weight).take limit),
       calls ++ [ExtCall.textSearchCall (limit * 2)])

/-- routers/search.py hybrid_search: rejects weights whose sum deviates from
1.0 by more than 0.01 with a 400 error before invoking the service, and
otherwise passes the weights through unchanged. -/
def route_hybrid_search (env : SearchEnv) (query : String) (limit : Nat)
    (semantic_weight text_weight : Score) :
    Except String (List FusedResult) × List ExtCall :=
  if abs (semantic_weight + text_weight - 1) > 1/100 then
    (.error "Semantic and text weights must sum to 1.0", [])
  else
    hybrid_search env query limit semantic_weight text_weight

/-- config.py: SIMILARITY_THRESHOLD = 0.7. -/
def SIMILARITY_THRESHOLD : Score := 7/10

/-- config.py: VECTOR_SIZE = 1536. -/
def VECTOR_SIZE : Nat := 1536

/-- A point stored in the main collection of the vector store. -/
structure StoredPoint where
  id : String
  vector : List ℚ
  payload : Payload
deriving DecidableEq

/-- The query_vector argument VectorService hands to the Qdrant client:
search_vectors passes a numeric vector, search_by_text_similarity passes the
raw query text. -/
inductive QueryInput where
  | vec (v : List ℚ)
  | text (s : String)
deriving DecidableEq

/-- One Qdrant filter condition: FieldCondition with MatchValue, or Range. -/
inductive Condition where
  | matchVal (key : String) (v : PVal)
  | rangeCond (key : String) (gte : Option ℚ) (lte : Option ℚ)
deriving DecidableEq

/-- Reading one field of a payload dict. -/
def payloadGet (p : Payload) (key : String) : Option PVal :=
  (p.find? (fun kv => kv.1 == key)).map Prod.snd

/-- Qdrant condition semantics: exact match compares the payload field to the
value; a range requires a numeric field within the given bounds. -/
def condHolds (p : Payload) : Condition → Bool
  | .matchVal key v => payloadGet p key == some v
  | .rangeCond key g l =>
    match payloadGet p key with
    | some (.num q) =>
      (match g with | some gq => decide (gq ≤ q) | none => true)
        && (match l with | some lq => decide (q ≤ lq) | none => true)
    | _ => false

/-- Filter(must=conds): conditions are conjunctive. -/
def condsHold (conds : List Condition) (p : Payload) : Bool :=
  conds.all (condHolds p)

/-- Sort order of client search results: descending similarity score. -/
def resultGE (a b : SearchResult) : Prop := b.score ≤ a.score

instance : DecidableRel resultGE :=
  fun a b => inferInstanceAs (Decidable (b.score ≤ a.score))

instance : IsTotal SearchResult resultGE :=
  ⟨fun a b => le_total b.score a.score⟩

instance : IsTrans SearchResult resultGE :=
  ⟨fun _ _ _ h1 h2 => le_trans h2 h1⟩

/-- Modelled from the spec (section 6, external interfaces): the external
vector database's search takes a numeric query vector, keeps the points whose
similarity to it is at least score_threshold and whose payload passes the
filter, orders them by descending score and returns at most limit of them;
the similarity measure itself (cosine) is abstracted as the function sim.
A non-numeric query_vector is rejected by the client, which is how the Qdrant
client behaves when handed a raw string. -/
def clientSearch (sim : List ℚ → List ℚ → ℚ) (store : List StoredPoint)
    (query_vector : QueryInput) (limit : Nat) (score_threshold : ℚ)
    (conds : List Condition) : Except String (List SearchResult) :=
  match query_vector with
  | .text _ => .error "query_vector must be a numeric vector"
  | .vec v =>
    let hits := store.filter
      (fun pt => decide (score_threshold ≤ sim v pt.vector) && condsHold conds pt.payload)
    let scored := hits.map
      (fun pt => ({ id := pt.id, score := sim v pt.vector, payload := pt.payload } : SearchResult))
    .ok ((List.insertionSort resultGE scored).take limit)

/-- The value of one entry of the filter_conditions dict taken by
VectorService.search_vectors: a plain value, or a {gte,lte} dict. -/
inductive FilterInput where
  | value (v : PVal)
  | dict (gte : Option ℚ) (lte : Option ℚ)
deriving DecidableEq

/-- VectorService._build_filter: plain values become exact-match conditions,
dicts with a gte or lte key become range conditions, dicts with neither are
silently dropped. -/
def build_filter (conds : List (String × FilterInput)) : List Condition :=
  conds.foldr
    (fun kv acc =>
      match kv.2 with
      | .value v => Condition.matchVal kv.1 v :: acc
      | .dict g l =>
        if g.isSome || l.isSome then Condition.rangeCond kv.1 g l :: acc else acc)
    []

/-- VectorService.search_vectors: defaults a missing score_threshold to
settings.SIMILARITY_THRESHOLD, builds the filter when conditions are given,
and delegates to the client with the numeric query vector. -/
def search_vectors (sim : List ℚ → List ℚ → ℚ) (store : List StoredPoint)
    (query_vector : List ℚ) (limit : Nat) (score_threshold : Option ℚ)
    (filter_conditions : Option (List (String × FilterInput))) :
    Except String (List SearchResult) :=
  let threshold := score_threshold.getD SIMILARITY_THRESHOLD
  let conds :=
    match filter_conditions with
    | some fc => build_filter fc
    | none => []
  match clientSearch sim store (QueryInput.vec query_vector) limit threshold conds with
  | .error e => .error ("Search failed: " ++ e)
  | .ok rs => .ok rs

/-- VectorService.search_by_text_similarity: defaults the threshold, then
calls the client with the RAW QUERY TEXT as query_vector (the source comment
claims it "will be converted to embedding by the service", but nothing does)
together with a content-match filter. -/
def search_by_text_similarity (sim : List ℚ → List ℚ → ℚ) (store : List StoredPoint)
    (query_text : String) (limit : Nat) (score_threshold : Option ℚ) :
    Except String (List SearchResult) :=
  let threshold := score_threshold.getD SIMILARITY_THRESHOLD
  match clientSearch sim store (QueryInput.text query_text) limit threshold
      [Condition.matchVal "content" (PVal.str query_text)] with
  | .error e => .error ("Text similarity search failed: " ++ e)
  | .ok rs => .ok rs

/-- EmbeddingService.embedding_cache: a dict from exact text to vector,
modelled as an association list whose most recent insertion is found first. -/
abbrev Cache := List (String × List ℚ)

/-- Cache read: text in self.embedding_cache / self.embedding_cache[text]. -/
def cacheLookup (cache : Cache) (text : String) : Option (List ℚ) :=
  (cache.find? (fun kv => kv.1 == text)).map Prod.snd

/-- EmbeddingService.get_embedding: return the cached vector on a hit with
use_cache set; otherwise call the provider with the single text, cache the
result when use_cache is set, and return it.  The third component counts the
provider calls the invocation made. -/
def get_embedding (provider : String → Except String (List ℚ)) (cache : Cache)
    (text : String) (use_cache : Bool) :
    Except String (List ℚ × Cache × Nat) :=
  if use_cache then
    match cacheLookup cache text with
    | some v => .ok (v, cache, 0)
    | none =>
      match provider text with
      | .error e => .error ("Failed to create embedding: " ++ e)
      | .ok v => .ok (v, (text, v) :: cache, 1)
  else
    match provider text with
    | .error e => .error ("Failed to create embedding: " ++ e)
    | .ok v => .ok (v, cache, 1)

/-- Helper for chunkList: each step consumes at least one element, so the
input length is enough fuel; structural recursion on the fuel keeps the
function kernel-reducible. -/
def chunkListAux : Nat → Nat → List String → List (List String)
  | _, _, [] => []
  | 0, _, _ :: _ => []
  | fuel + 1, bs, a :: l => (a :: l.take bs) :: chunkListAux fuel bs (l.drop bs)

/-- The chunking performed by the loop for i in range(0, len(texts),
batch_size): texts[i:i+batch_size] for each chunk start (batch_size 0 never
reaches this: Python's range rejects a zero step). -/
def chunkList (bs : Nat) (l : List String) : List (List String) :=
  match bs with
  | 0 => []
  | bs + 1 => chunkListAux l.length bs l

/-- The chunk loop of EmbeddingService.get_embeddings: one provider call per
chunk, extending the accumulated list; a chunk failure fails the whole batch.
Returns the outcome together with the number of provider calls made. -/
def runChunks (provider_batch : List String → Except String (List (List ℚ))) :
    List (List String) → Except String (List (List ℚ)) × Nat
  | [] => (.ok [], 0)
  | c :: cs =>
    match provider_batch c with
    | .error e => (.error ("Failed to create embeddings for batch: " ++ e), 1)
    | .ok embs =>
      match runChunks provider_batch cs with
      | (.error e, n) => (.error e, n + 1)
      | (.ok rest, n) => (.ok (embs ++ rest), n + 1)

/-- EmbeddingService.get_embeddings: partitions texts into chunks of
batch_size and issues one provider call per chunk.  The method never reads or
writes self.embedding_cache, so the cache is returned unchanged; a zero
batch_size is the ValueError Python's range raises for a zero step. -/
def get_embeddings (provider_batch : List String → Except String (List (List ℚ)))
    (cache : Cache) (texts : List String) (batch_size : Nat) :
    Except String (List (List ℚ)) × Cache × Nat :=
  if batch_size = 0 then
    (.error "range() arg 3 must not be zero", cache, 0)
  else
    match runChunks provider_batch (chunkList batch_size texts) with
    | (.error e, n) => (.error e, cache, n)
    | (.ok embs, n) => (.ok embs, cache, n)

/-- PyObj: the dynamic value handed to EmbeddingService.validate_embedding;
either a Python list of elements or some non-list object. -/
inductive PyObj where
  | list (xs : List PVal)
  | nonList (tag : String)
deriving DecidableEq

/-- EmbeddingService.get_embedding_dimension: returns settings.VECTOR_SIZE. -/
def get_embedding_dimension : Nat := VECTOR_SIZE

/-- EmbeddingService.validate_embedding: False for a non-list, False on a
length mismatch; after that the source evaluates
all(isinstance(x, (int, float)) for x in embedding) but DISCARDS the result
and returns True. -/
def validate_embedding (embedding : PyObj) : Bool :=
  match embedding with
  | .nonList _ => false
  | .list xs =>
    if xs.length ≠ get_embedding_dimension then false
    else
      let _elems_numeric := xs.all (fun x => match x with | PVal.num _ => true | _ => false)
      true

/-- One result group assembled by SearchService.batch_search:
{query, results, total_found, query_index}. -/
structure BatchGroup where
  query : String
  results : List SearchResult
  total_found : Nat
  query_index : Nat
deriving DecidableEq

/-- The fan-out of SearchService.batch_search: one vector search per
(query, embedding) pair gathered in input order, any failure failing the
whole batch (asyncio.gather semantics). -/
def gatherSearches (vsearch : List ℚ → Nat → Except String (List SearchResult))
    (limit : Nat) : List (String × List ℚ) → Except String (List (List SearchResult))
  | [] => .ok []
  | qe :: rest =>
    match vsearch qe.2 limit with
    | .error e => .error e
    | .ok rs =>
      match gatherSearches vsearch limit rest with
      | .error e => .error e
      | .ok rss => .ok (rs :: rss)

/-- The formatting loop of batch_search:
for i, (query, query_results) in enumerate(zip(queries, search_results)). -/
def formatGroups : List String → List (List SearchResult) → Nat → List BatchGroup
  | q :: qs, rs :: rss, i =>
    { query := q, results := rs, total_found := rs.length, query_index := i }
      :: formatGroups qs rss (i + 1)
  | _, _, _ => []

/-- SearchService.batch_search: embed all queries through
get_embeddings (default batch_size 100), issue one vector search per
(query, embedding) pair, and tag each result group with its input index. -/
def batch_search (provider_batch : List String → Except String (List (List ℚ)))
    (vsearch : List ℚ → Nat → Except String (List SearchResult))
    (cache : Cache) (queries : List String) (limit : Nat) :
    Except String (List BatchGroup) :=
  match (get_embeddings provider_batch cache queries 100).1 with
  | .error e => .error ("Batch search failed: " ++ e)
  | .ok embeddings =>
    match gatherSearches vsearch limit (queries.zip embeddings) with
    | .error e => .error ("Batch search failed: " ++ e)
    | .ok search_results => .ok (formatGroups queries search_results 0)

/-- The payload BaseAgent.store_memory attaches to a point:
{"text": ..., "agent": ..., "metadata": ...}. -/
structure MemPayload where
  text : String
  agent : String
  metadata : List (String × String)
deriving DecidableEq

/-- A point in an agent's Qdrant collection. -/
structure MemPoint where
  id : String
  vector : List ℚ
  payload : MemPayload
deriving DecidableEq

/-- Modelled from the spec (sections 4.2 and 6): Qdrant upsert writes the
point, overwriting any existing point with the same id. -/
def qdrantUpsert (coll : List MemPoint) (p : MemPoint) : List MemPoint :=
  if coll.any (fun q => q.id == p.id) then
    coll.map (fun q => if q.id == p.id then p else q)
  else
    coll ++ [p]

/-- BaseAgent.store_memory: embeds the text, computes
point_id = f"{self.name}_{len(embedding)}", and upserts the point with the
text/agent/metadata payload into the agent's collection.  Returns the point
id and the updated collection. -/
def store_memory (provider : String → List ℚ) (name : String)
    (coll : List MemPoint) (text : String) (metadata : List (String × String)) :
    String × List MemPoint :=
  let embedding := provider text
  let point_id := name ++ "_" ++ toString embedding.length
  (point_id,
   qdrantUpsert coll
     { id := point_id, vector := embedding,
       payload := { text := text, agent := name, metadata := metadata } })

/-- A sequence of store_memory calls (with empty metadata), threading the
collection through. -/
def store_memory_seq (provider : String → List ℚ) (name : String)
    (coll : List MemPoint) : List String → List MemPoint
  | [] => coll
  | t :: ts => store_memory_seq provider name (store_memory provider name coll t []).2 ts

/-- The point store_memory builds for one text, given the provider. -/
def mkMemPoint (provider : String → List ℚ) (name : String) (t : String) : MemPoint :=
  { id := name ++ "_" ++ toString (provider t).length, vector := provider t,
    payload := { text := t, agent := name, metadata := [] } }

/-- Concrete collaborator set used to evaluate the service on closed inputs. -/
def env0 : SearchEnv :=
  { embed := fun _ => .ok [1],
    vectorSearch := fun _ _ => .ok [],
    textSearch := fun _ _ => .ok [] }

/-- Concrete batch embedding provider: one vector [1] per input text. -/
def pb0 : List String → Except String (List (List ℚ)) :=
  fun ts => .ok (ts.map (fun _ => [1]))

/-- Concrete vector search returning no hits. -/
def vs0 : List ℚ → Nat → Except String (List SearchResult) :=
  fun _ _ => .ok []

/-- Concrete similarity function: every score is 0. -/
def sim0 : List ℚ → List ℚ → ℚ := fun _ _ => 0

/-- Concrete one-point store. -/
def store1 : List StoredPoint := [{ id := "p1", vector := [1], payload := [] }]

/-- Concrete single-text embedding provider. -/
def provider0 : String → Except String (List ℚ) := fun _ => .ok [1, 2]

/-- Concrete agent embedding provider of dimension 2. -/
def provider1 : String → List ℚ := fun _ => [0, 0]

/-- Concrete semantic result list. -/
def semA : List SearchResult := [{ id := "x", score := 1/2, payload := [] }]

/-- Concrete lexical result list. -/
def textA : List SearchResult := [{ id := "y", score := 1/4, payload := [] }]

theorem buildLookup_of_mem (rs : List SearchResult)
    (hnd : (rs.map SearchResult.id).Nodup) (r : SearchResult) (hr : r ∈ rs) :
    buildLookup rs r.id = some r := by
  unfold buildLookup
  cases hfind : rs.reverse.find? (fun x => x.id == r.id) with
  | none =>
    have h1 := List.find?_eq_none.mp hfind r (List.mem_reverse.mpr hr)
    simp at h1
  | some q =>
    have hq : q ∈ rs := List.mem_reverse.mp (List.mem_of_find?_eq_some hfind)
    have hpq := List.find?_some hfind
    have hid : q.id = r.id := by simpa using hpq
    have := List.inj_on_of_nodup_map hnd hq hr hid
    rw [this]

theorem buildLookup_eq_none (rs : List SearchResult) (i : String)
    (h : ∀ r ∈ rs, r.id ≠ i) : buildLookup rs i = none := by
  unfold buildLookup
  apply List.find?_eq_none.mpr
  intro x hx
  simpa using h x (List.mem_reverse.mp hx)

theorem lookupScore_of_mem (rs : List SearchResult)
    (hnd : (rs.map SearchResult.id).Nodup) (r : SearchResult) (hr : r ∈ rs) :
    lookupScore rs r.id = r.score := by
  unfold lookupScore
  rw [buildLookup_of_mem rs hnd r hr]

theorem lookupScore_of_absent (rs : List SearchResult) (i : String)
    (h : ∀ r ∈ rs, r.id ≠ i) : lookupScore rs i = 0 := by
  unfold lookupScore
  rw [buildLookup_eq_none rs i h]

/-- C2: for every pair of semantic and lexical result lists (with the per-list
unique ids a search produces) and every id in the union of their id sets, the
fused entry has semantic_score equal to that id's score in the semantic list
(0 if absent), text_score equal to that id's score in the lexical list (0 if
absent), and combined score semantic_weight * semantic_score +
text_weight * text_score. -/
theorem combine_scores_from_each_side (semR textR : List SearchResult)
    (sw tw : Score) (i : String)
    (hsem : (semR.map SearchResult.id).Nodup)
    (htext : (textR.map SearchResult.id).Nodup)
    (hi : i ∈ allIds semR textR) :
    ∃ f ∈ combine_search_results semR textR sw tw,
      f.id = i
      ∧ (∀ r ∈ semR, r.id = i → f.semantic_score = r.score)
      ∧ ((∀ r ∈ semR, r.id ≠ i) → f.semantic_score = 0)
      ∧ (∀ r ∈ textR, r.id = i → f.text_score = r.score)
      ∧ ((∀ r ∈ textR, r.id ≠ i) → f.text_score = 0)
      ∧ f.score = sw * f.semantic_score + tw * f.text_score := by
  refine ⟨fusedEntry semR textR sw tw i, ?_, rfl, ?_, ?_, ?_, ?_, ?_⟩
  · unfold combine_search_results
    exact (List.mem_insertionSort fusedGE).mpr (List.mem_map_of_mem _ hi)
  · intro r hr hri
    show lookupScore semR i = r.score
    rw [← hri]
    exact lookupScore_of_mem semR hsem r hr
  · intro h
    exact lookupScore_of_absent semR i h
  · intro r hr hri
    show lookupScore textR i = r.score
    rw [← hri]
    exact lookupScore_of_mem textR htext r hr
  · intro h
    exact lookupScore_of_absent textR i h
  · show lookupScore semR i * sw + lookupScore textR i * tw =
      sw * lookupScore semR i + tw * lookupScore textR i
    ring

theorem combine_scores_from_each_side_witness :
    ∃ f ∈ combine_search_results semA textA (7/10) (3/10),
      f.id = "x"
      ∧ (∀ r ∈ semA, r.id = "x" → f.semantic_score = r.score)
      ∧ ((∀ r ∈ semA, r.id ≠ "x") → f.semantic_score = 0)
      ∧ (∀ r ∈ textA, r.id = "x" → f.text_score = r.score)
      ∧ ((∀ r ∈ textA, r.id ≠ "x") → f.text_score = 0)
      ∧ f.score = 7/10 * f.semantic_score + 3/10 * f.text_score :=
  combine_scores_from_each_side semA textA (7/10) (3/10) "x"
    (by decide) (by decide) (by decide)

/-- C3: for every pair of result lists and every weight pair summing to 1,
the combined output carries exactly one entry per id of the union (its id
list is a permutation of the deduplicated union) and is sorted non-increasing
by combined score; hybrid_search requests limit*2 candidates from each of the
two searches and truncates the fused list to at most limit entries. -/
theorem combine_union_sorted_hybrid_truncates
    (semR textR : List SearchResult) (sw tw : Score) (h1 : sw + tw = 1)
    (env : SearchEnv) (q : String) (limit : Nat) (v : List ℚ)
    (hv : env.embed q = .ok v)
    (hsem : env.vectorSearch v (limit * 2) = .ok semR)
    (htext : env.textSearch q (limit * 2) = .ok textR) :
    ((combine_search_results semR textR sw tw).map FusedResult.id).Perm (allIds semR textR)
    ∧ List.Sorted fusedGE (combine_search_results semR textR sw tw)
    ∧ hybrid_search env q limit sw tw =
        (Except.ok ((combine_search_results semR textR sw tw).take limit),
         [ExtCall.embedCall q, ExtCall.vectorSearchCall (limit * 2),
          ExtCall.textSearchCall (limit * 2)])
    ∧ ((combine_search_results semR textR sw tw).take limit).length ≤ limit := by
  refine ⟨?_, ?_, ?_, ?_⟩
  · have h1 : (combine_search_results semR textR sw tw).Perm
        ((allIds semR textR).map (fusedEntry semR textR sw tw)) :=
      List.perm_insertionSort fusedGE _
    have h2 := h1.map FusedResult.id
    rw [List.map_map] at h2
    have h3 : (FusedResult.id ∘ fusedEntry semR textR sw tw) = id := by
      funext j
      rfl
    rw [h3, List.map_id] at h2
    exact h2
  · exact List.sorted_insertionSort fusedGE _
  · unfold hybrid_search semantic_search
    simp only [hv, hsem, htext]
    rfl
  · simp only [List.length_take]
    exact Nat.min_le_left _ _

theorem combine_union_sorted_hybrid_truncates_witness :
    hybrid_search env0 "q" 3 (7/10) (3/10) =
      (Except.ok ((combine_search_results [] [] (7/10) (3/10)).take 3),
       [ExtCall.embedCall "q", ExtCall.vectorSearchCall 6, ExtCall.textSearchCall 6]) :=
  (combine_union_sorted_hybrid_truncates [] [] (7/10) (3/10) (by norm_num)
    env0 "q" 3 [1] rfl rfl rfl).2.2.1

/-- C1 counterexample: the service-level entry point hybrid_search, handed
weights summing to 1.1 (deviation 0.1, above the 0.01 tolerance), is not
rejected: it makes an embedding-provider call and two vector-store calls and
returns a fused result instead of a validation error. -/
theorem service_hybrid_search_skips_weight_validation :
    hybrid_search env0 "q" 10 (1/2) (3/5) =
      (Except.ok [], [ExtCall.embedCall "q", ExtCall.vectorSearchCall 20,
        ExtCall.textSearchCall 20])
    ∧ abs ((1/2 : ℚ) + 3/5 - 1) > 1/100 := by
  constructor
  · rfl
  · rw [show ((1:ℚ)/2 + 3/5 - 1) = 1/10 by norm_num,
      abs_of_pos (by norm_num : (0:ℚ) < 1/10)]
    norm_num

/-- C1 (amended): only the route-level hybrid_search validates the weights:
when their sum deviates from 1.0 by more than 0.01 it rejects with a
validation error before any service, embedding-provider or vector-store call
is made, and otherwise it forwards the weights unchanged (never clamped) to
the service; the service-level hybrid_search itself performs no weight
validation. -/
theorem hybrid_route_rejects_bad_weights (env : SearchEnv) (q : String)
    (limit : Nat) (sw tw : Score) :
    (abs (sw + tw - 1) > 1/100 →
      route_hybrid_search env q limit sw tw =
        (Except.error "Semantic and text weights must sum to 1.0", []))
    ∧ (¬ abs (sw + tw - 1) > 1/100 →
      route_hybrid_search env q limit sw tw = hybrid_search env q limit sw tw) := by
  constructor
  · intro h
    unfold route_hybrid_search
    rw [if_pos h]
  · intro h
    unfold route_hybrid_search
    rw [if_neg h]

theorem hybrid_route_rejects_bad_weights_witness :
    route_hybrid_search env0 "q" 10 (1/2) (3/5) =
      (Except.error "Semantic and text weights must sum to 1.0", []) :=
  (hybrid_route_rejects_bad_weights env0 "q" 10 (1/2) (3/5)).1
    (by rw [show ((1:ℚ)/2 + 3/5 - 1) = 1/10 by norm_num,
        abs_of_pos (by norm_num : (0:ℚ) < 1/10)]
        norm_num)

/-- C4 refuted on the code: search_by_text_similarity hands the raw query
string to the vector store as query_vector, which the store rejects, so every
call fails instead of returning a filtered text-match result list. -/
theorem search_by_text_similarity_always_fails (sim : List ℚ → List ℚ → ℚ)
    (store : List StoredPoint) (query_text : String) (limit : Nat)
    (score_threshold : Option ℚ) :
    search_by_text_similarity sim store query_text limit score_threshold =
      Except.error "Text similarity search failed: query_vector must be a numeric vector" :=
  rfl

/-- C5: with caching enabled, once a call get_embedding(t) has succeeded, a
second get_embedding(t) for the exact same text returns the identical vector
and identical cache while invoking the provider zero further times; the first
call itself invoked it at most once, so across the two calls the provider ran
at most once. -/
theorem get_embedding_cached_single_call (provider : String → Except String (List ℚ))
    (cache : Cache) (text : String) (v1 : List ℚ) (c1 : Cache) (n1 : Nat)
    (h : get_embedding provider cache text true = .ok (v1, c1, n1)) :
    get_embedding provider c1 text true = .ok (v1, c1, 0) ∧ n1 ≤ 1 := by
  unfold get_embedding at h ⊢
  simp only [if_pos] at h ⊢
  cases hc : cacheLookup cache text with
  | some v =>
    rw [hc] at h
    simp only [Except.ok.injEq, Prod.mk.injEq] at h
    obtain ⟨hv, hcc, hn⟩ := h
    subst hv
    subst hcc
    subst hn
    rw [hc]
    exact ⟨rfl, by omega⟩
  | none =>
    rw [hc] at h
    cases hp : provider text with
    | error e =>
      rw [hp] at h
      simp at h
    | ok v =>
      rw [hp] at h
      simp only [Except.ok.injEq, Prod.mk.injEq] at h
      obtain ⟨hv, hcc, hn⟩ := h
      subst hv
      subst hcc
      subst hn
      have hlook : cacheLookup ((text, v) :: cache) text = some v := by
        simp [cacheLookup, List.find?]
      rw [hlook]
      exact ⟨rfl, by omega⟩

theorem get_embedding_cached_single_call_witness :
    get_embedding provider0 [("hello", [1, 2])] "hello" true =
      Except.ok ([1, 2], [("hello", [1, 2])], 0) ∧ 1 ≤ 1 :=
  get_embedding_cached_single_call provider0 [] "hello" [1, 2]
    [("hello", [1, 2])] 1 rfl

/-- C8: search_vectors applies the configured minimum similarity threshold
when no explicit one is supplied, and when no stored point reaches the
threshold (in particular when it exceeds the best achievable score) the call
returns ok with an empty list, not an error. -/
theorem search_vectors_default_threshold_empty_ok (sim : List ℚ → List ℚ → ℚ)
    (store : List StoredPoint) (query_vector : List ℚ) (limit : Nat)
    (filter_conditions : Option (List (String × FilterInput))) (threshold : ℚ) :
    search_vectors sim store query_vector limit none filter_conditions =
      search_vectors sim store query_vector limit (some SIMILARITY_THRESHOLD) filter_conditions
    ∧ ((∀ pt ∈ store, sim query_vector pt.vector < threshold) →
        search_vectors sim store query_vector limit (some threshold) filter_conditions =
          Except.ok []) := by
  constructor
  · rfl
  · intro h
    unfold search_vectors clientSearch
    have hfilter : store.filter
        (fun pt => decide (threshold ≤ sim query_vector pt.vector)
          && condsHold (match filter_conditions with
              | some fc => build_filter fc
              | none => []) pt.payload) = [] := by
      apply List.filter_eq_nil_iff.mpr
      intro pt hpt
      have := h pt hpt
      simp [not_le.mpr this]
    simp only [Option.getD_some, hfilter, List.map_nil]
    simp

theorem search_vectors_default_threshold_empty_ok_witness :
    search_vectors sim0 store1 [2] 5 (some 1) none = Except.ok [] :=
  (search_vectors_default_threshold_empty_ok sim0 store1 [2] 5 none 1).2
    (by intro pt hpt; norm_num [sim0])

theorem gatherSearches_ok_length
    (vsearch : List ℚ → Nat → Except String (List SearchResult)) (limit : Nat) :
    ∀ (pairs : List (String × List ℚ)) (rss : List (List SearchResult)),
      gatherSearches vsearch limit pairs = .ok rss → rss.length = pairs.length := by
  intro pairs
  induction pairs with
  | nil =>
    intro rss h
    obtain rfl : ([] : List (List SearchResult)) = rss := by simpa [gatherSearches] using h
    rfl
  | cons qe rest ih =>
    intro rss h
    unfold gatherSearches at h
    cases hv : vsearch qe.2 limit with
    | error e =>
      rw [hv] at h
      simp at h
    | ok rs =>
      rw [hv] at h
      cases hg : gatherSearches vsearch limit rest with
      | error e =>
        rw [hg] at h
        simp at h
      | ok rss2 =>
        rw [hg] at h
        simp only [Except.ok.injEq] at h
        subst h
        simp [ih rss2 hg]

theorem gatherSearches_ok_get?
    (vsearch : List ℚ → Nat → Except String (List SearchResult)) (limit : Nat) :
    ∀ (pairs : List (String × List ℚ)) (rss : List (List SearchResult)),
      gatherSearches vsearch limit pairs = .ok rss →
      ∀ (i : Nat) (p : String × List ℚ), pairs.get? i = some p →
        ∃ rs, rss.get? i = some rs ∧ vsearch p.2 limit = .ok rs := by
  intro pairs
  induction pairs with
  | nil =>
    intro rss h i p hp
    simp at hp
  | cons qe rest ih =>
    intro rss h i p hp
    unfold gatherSearches at h
    cases hv : vsearch qe.2 limit with
    | error e =>
      rw [hv] at h
      simp at h
    | ok rs =>
      rw [hv] at h
      cases hg : gatherSearches vsearch limit rest with
      | error e =>
        rw [hg] at h
        simp at h
      | ok rss2 =>
        rw [hg] at h
        simp only [Except.ok.injEq] at h
        subst h
        cases i with
        | zero =>
          simp only [List.get?] at hp
          obtain rfl : qe = p := by simpa using hp
          exact ⟨rs, rfl, hv⟩
        | succ j =>
          exact ih rss2 hg j p hp

theorem formatGroups_length :
    ∀ (qs : List String) (rss : List (List SearchResult)) (s : Nat),
      (formatGroups qs rss s).length = min qs.length rss.length := by
  intro qs
  induction qs with
  | nil =>
    intro rss s
    cases rss <;> simp [formatGroups]
  | cons q qs ih =>
    intro rss s
    cases rss with
    | nil => simp [formatGroups]
    | cons rs rss2 =>
      show (formatGroups qs rss2 (s + 1)).length + 1 = _
      rw [ih rss2 (s + 1)]
      simp only [List.length_cons]
      omega

theorem formatGroups_get? :
    ∀ (qs : List String) (rss : List (List SearchResult)) (s i : Nat),
      (formatGroups qs rss s).get? i =
        match qs.get? i, rss.get? i with
        | some q, some rs =>
          some { query := q, results := rs, total_found := rs.length,
                 query_index := s + i }
        | _, _ => none := by
  intro qs
  induction qs with
  | nil =>
    intro rss s i
    cases rss <;> cases i <;> rfl
  | cons q qs ih =>
    intro rss s i
    cases rss with
    | nil =>
      cases i with
      | zero => rfl
      | succ n => cases hx : qs.get? n <;> simp [formatGroups, hx]
    | cons rs rss2 =>
      cases i with
      | zero => rfl
      | succ j =>
        show (formatGroups qs rss2 (s + 1)).get? j = _
        rw [ih rss2 (s + 1) j]
        have hsj : s + 1 + j = s + (j + 1) := by omega
        cases hq : qs.get? j <;> cases hr : rss2.get? j <;>
          simp only [List.get?_eq_getElem?] at hq hr <;> simp [hsj, hq, hr]

/-- C6: whenever the batch provider returns one embedding per query,
batch_search yields exactly one result group per input query, index-aligned:
group i carries query_index i, the i-th query, the vector-search results for
the i-th embedding, and a matching total_found.  (The concurrent fan-out is
gathered in argument order by asyncio.gather; the model keeps that order
contract explicitly.) -/
theorem batch_search_index_aligned
    (provider_batch : List String → Except String (List (List ℚ)))
    (vsearch : List ℚ → Nat → Except String (List SearchResult))
    (cache : Cache) (queries : List String) (limit : Nat)
    (embeddings : List (List ℚ)) (groups : List BatchGroup)
    (hemb : (get_embeddings provider_batch cache queries 100).1 = .ok embeddings)
    (hlen : embeddings.length = queries.length)
    (hb : batch_search provider_batch vsearch cache queries limit = .ok groups) :
    groups.length = queries.length
    ∧ ∀ (i : Nat) (g : BatchGroup), groups.get? i = some g →
        g.query_index = i
        ∧ queries.get? i = some g.query
        ∧ (∃ e, embeddings.get? i = some e ∧ vsearch e limit = .ok g.results)
        ∧ g.total_found = g.results.length := by
  unfold batch_search at hb
  rw [hemb] at hb
  cases hg : gatherSearches vsearch limit (queries.zip embeddings) with
  | error e =>
    simp only [hg] at hb
    exact Except.noConfusion hb
  | ok rss =>
    simp only [hg, Except.ok.injEq] at hb
    subst hb
    have hrsslen : rss.length = (queries.zip embeddings).length :=
      gatherSearches_ok_length vsearch limit _ rss hg
    have hziplen : (queries.zip embeddings).length = queries.length := by
      rw [List.length_zip, hlen]
      exact Nat.min_self _
    constructor
    · rw [formatGroups_length]
      omega
    · intro i g hgi
      rw [formatGroups_get? queries rss 0 i] at hgi
      cases hq : queries.get? i with
      | none =>
        rw [hq] at hgi
        simp at hgi
      | some qq =>
        cases hr : rss.get? i with
        | none =>
          rw [hq, hr] at hgi
          simp at hgi
        | some rs =>
          rw [hq, hr] at hgi
          simp only [Option.some.injEq] at hgi
          subst hgi
          have hqlt : i < queries.length := by
            by_contra hcon
            rw [List.get?_eq_none.mpr (by omega)] at hq
            exact Option.noConfusion hq
          obtain ⟨e, he⟩ : ∃ e, embeddings.get? i = some e := by
            cases hee : embeddings.get? i with
            | none =>
              rw [List.get?_eq_none] at hee
              omega
            | some e => exact ⟨e, rfl⟩
          have hpair : (queries.zip embeddings).get? i = some (qq, e) :=
            (List.get?_zip_eq_some _ _ _ _).mpr ⟨hq, he⟩
          obtain ⟨rs2, hrs2, hv2⟩ :=
            gatherSearches_ok_get? vsearch limit _ rss hg i (qq, e) hpair
          rw [hr] at hrs2
          simp only [Option.some.injEq] at hrs2
          subst hrs2
          exact ⟨by simp, rfl, ⟨e, he, hv2⟩, rfl⟩

/-- Concrete expected result groups for the batch-search witness. -/
def grps0 : List BatchGroup :=
  [{ query := "a", results := [], total_found := 0, query_index := 0 },
   { query := "b", results := [], total_found := 0, query_index := 1 }]

theorem batch_search_index_aligned_witness :
    batch_search pb0 vs0 [] ["a", "b"] 3 = Except.ok grps0
    ∧ grps0.length = (["a", "b"] : List String).length :=
  ⟨rfl, (batch_search_index_aligned pb0 vs0 [] ["a", "b"] 3 [[1], [1]]
    grps0 rfl rfl rfl).1⟩

/-- C7 refuted on the code: validate_embedding evaluates the element-type
check (commented "Check that all values are floats") but discards its result
and returns True, so a correct-length list with no numeric element — here
1536 copies of the string "x" — is reported valid even though the element
check itself is false. -/
theorem validate_embedding_ignores_element_check :
    validate_embedding (PyObj.list (List.replicate 1536 (PVal.str "x"))) = true
    ∧ (List.replicate 1536 (PVal.str "x")).all
        (fun x => match x with | PVal.num _ => true | _ => false) = false := by
  constructor
  · simp only [validate_embedding, List.length_replicate, get_embedding_dimension,
      VECTOR_SIZE]
    simp
  · rw [show (1536 : Nat) = 1535 + 1 from rfl, List.replicate_succ]
    simp only [List.all_cons]
    rfl

theorem store_memory_seq_singleton (provider : String → List ℚ) (name : String)
    (D : Nat) (hD : ∀ t, (provider t).length = D) :
    ∀ (ts : List String) (p : MemPoint), p.id = name ++ "_" ++ toString D →
      store_memory_seq provider name [p] ts =
        [ts.foldl (fun _ t => mkMemPoint provider name t) p] := by
  intro ts
  induction ts with
  | nil =>
    intro p hp
    rfl
  | cons t ts ih =>
    intro p hp
    show store_memory_seq provider name (store_memory provider name [p] t []).2 ts = _
    have hid : (mkMemPoint provider name t).id = name ++ "_" ++ toString D := by
      simp [mkMemPoint, hD t]
    have hstep : (store_memory provider name [p] t []).2 = [mkMemPoint provider name t] := by
      simp [store_memory, qdrantUpsert, mkMemPoint, hp, hD t]
    rw [hstep, ih (mkMemPoint provider name t) hid]
    rfl

theorem foldl_replace_getLast (f : String → MemPoint) :
    ∀ (ts : List String) (a : String),
      List.foldl (fun _ t => f t) (f a) ts =
        f ((a :: ts).getLast (List.cons_ne_nil a ts)) := by
  intro ts
  induction ts with
  | nil =>
    intro a
    rfl
  | cons t ts ih =>
    intro a
    show List.foldl (fun _ x => f x) (f t) ts = _
    rw [ih t]
    congr 1

/-- C9: store_memory computes the point id as the agent name concatenated
with the embedding length, a constant for a provider of fixed dimension D;
consequently every call upserts the same single point, and after any
non-empty sequence of store_memory calls starting from an empty collection
the collection holds exactly one point, carrying the most recently stored
text. -/
theorem store_memory_fixed_point_id (provider : String → List ℚ) (name : String)
    (D : Nat) (texts : List String)
    (hD : ∀ t, (provider t).length = D) (hne : texts ≠ []) :
    (∀ (coll : List MemPoint) (t : String) (md : List (String × String)),
        (store_memory provider name coll t md).1 = name ++ "_" ++ toString D)
    ∧ (store_memory_seq provider name [] texts).length = 1
    ∧ ∀ p ∈ store_memory_seq provider name [] texts,
        p.id = name ++ "_" ++ toString D
        ∧ p.payload.text = texts.getLast hne := by
  obtain ⟨t0, ts, rfl⟩ : ∃ t0 ts, texts = t0 :: ts := by
    cases texts with
    | nil => exact absurd rfl hne
    | cons a l => exact ⟨a, l, rfl⟩
  have hfirst : store_memory_seq provider name [] (t0 :: ts) =
      [List.foldl (fun _ t => mkMemPoint provider name t)
        (mkMemPoint provider name t0) ts] := by
    show store_memory_seq provider name (store_memory provider name [] t0 []).2 ts = _
    have hstep0 : (store_memory provider name [] t0 []).2 =
        [mkMemPoint provider name t0] := by
      simp [store_memory, qdrantUpsert, mkMemPoint]
    rw [hstep0]
    exact store_memory_seq_singleton provider name D hD ts _
      (by simp [mkMemPoint, hD t0])
  refine ⟨?_, ?_, ?_⟩
  · intro coll t md
    simp [store_memory, hD t]
  · rw [hfirst]
    rfl
  · intro p hp
    rw [hfirst] at hp
    simp only [List.mem_singleton] at hp
    subst hp
    rw [foldl_replace_getLast (mkMemPoint provider name) ts t0]
    exact ⟨by simp [mkMemPoint, hD], rfl⟩

theorem store_memory_fixed_point_id_witness :
    (store_memory_seq provider1 "Cara" [] ["a", "b"]).length = 1 :=
  (store_memory_fixed_point_id provider1 "Cara" 2 ["a", "b"]
    (fun _ => rfl) (by simp)).2.1

theorem runChunks_ok_count
    (provider_batch : List String → Except String (List (List ℚ))) :
    ∀ (cs : List (List String)),
      (∀ c ∈ cs, ∃ embs, provider_batch c = .ok embs) →
      ∃ out, runChunks provider_batch cs = (.ok out, cs.length) := by
  intro cs
  induction cs with
  | nil =>
    intro _
    exact ⟨[], rfl⟩
  | cons c cs ih =>
    intro h
    obtain ⟨embs, hc⟩ := h c (List.mem_cons_self c cs)
    obtain ⟨out, hrec⟩ := ih (fun x hx => h x (List.mem_cons_of_mem c hx))
    refine ⟨embs ++ out, ?_⟩
    unfold runChunks
    rw [hc, hrec]
    exact rfl

/-- C10: get_embeddings neither reads nor writes the embedding cache: the
cache comes back unchanged, the outcome and the provider-call count are
independent of the cache contents, and — even when every input text already
has a cached vector — one provider call is issued per chunk. -/
theorem get_embeddings_ignores_cache
    (provider_batch : List String → Except String (List (List ℚ)))
    (cache1 cache2 : Cache) (texts : List String) (batch_size : Nat)
    (hbs : 0 < batch_size)
    (hcached : ∀ t ∈ texts, (cacheLookup cache1 t).isSome = true)
    (hok : ∀ c ∈ chunkList batch_size texts, ∃ embs, provider_batch c = .ok embs) :
    (get_embeddings provider_batch cache1 texts batch_size).2.1 = cache1
    ∧ (get_embeddings provider_batch cache1 texts batch_size).1 =
        (get_embeddings provider_batch cache2 texts batch_size).1
    ∧ (get_embeddings provider_batch cache1 texts batch_size).2.2 =
        (get_embeddings provider_batch cache2 texts batch_size).2.2
    ∧ (get_embeddings provider_batch cache1 texts batch_size).2.2 =
        (chunkList batch_size texts).length := by
  obtain ⟨out, hrun⟩ := runChunks_ok_count provider_batch _ hok
  have hbs2 : ¬ batch_size = 0 := by omega
  unfold get_embeddings
  simp only [if_neg hbs2, hrun]
  refine ⟨?_, ?_, ?_, ?_⟩ <;> trivial

theorem get_embeddings_ignores_cache_witness :
    (get_embeddings pb0 [("a", [1])] ["a"] 100).2.1 = [("a", [1])]
    ∧ (get_embeddings pb0 [("a", [1])] ["a"] 100).1 =
        (get_embeddings pb0 [] ["a"] 100).1
    ∧ (get_embeddings pb0 [("a", [1])] ["a"] 100).2.2 =
        (get_embeddings pb0 [] ["a"] 100).2.2
    ∧ (get_embeddings pb0 [("a", [1])] ["a"] 100).2.2 =
        (chunkList 100 ["a"]).length :=
  get_embeddings_ignores_cache pb0 [("a", [1])] [] ["a"] 100 (by omega)
    (by decide) (fun c _ => ⟨c.map (fun _ => [1]), rfl⟩)

end Marblrun
